import Mathlib

/-!
# SVGify (PNG→SVG converter) — verification of spec claims

Shallow embedding of the parts of the SVGify sources that the claims are
about:

* `CanvasManager` undo/redo history (`src/app.js`, `saveState` / `undo` /
  `redo` / `canUndo` / `canRedo` / `handleResize` / `fitToViewport` /
  `zoomIn` / `zoomOut`);
* `ImageSmoother.smoothEdgesOnly` (`src/app.js`);
* `BatchConverter` (`src/unnamed/part_002`, `handleFileSelect` /
  `startConversion` / `downloadAll`);
* the `isProcessing` guards of `handleVectorize` (`src/app.js`) and
  `BatchConverter.startConversion`.

JavaScript numbers are modelled as exact rationals (`ℚ`); none of the
verified computations sits at a floating-point rounding boundary.
-/

namespace SVGify

/-! ## CanvasManager history (src/app.js)

`CanvasManager` keeps `this.history` (an array of serialized snapshots),
`this.historyIndex` (initially `-1`) and `this.maxHistorySize = 20`.
The live canvas is serialized by `JSON.stringify(this.canvas.toJSON())`;
we abstract a serialized snapshot as an element of a type `S` and keep the
serialization of the live scene in the field `live`. -/

/-- State of `CanvasManager`'s history: the `history` array, the
`historyIndex` cursor (a JS number, `-1` before the first save) and the
serialization of the live scene. -/
structure CanvasHistory (S : Type) where
  history : List S
  historyIndex : Int
  live : S
deriving DecidableEq, Repr

/-- `this.maxHistorySize = 20` in the `CanvasManager` constructor. -/
def maxHistorySize : Nat := 20

/-- `CanvasManager.saveState`:
`this.history = this.history.slice(0, this.historyIndex + 1)`, then
`this.history.push(state)` with the serialized live scene, then
`if (this.history.length > this.maxHistorySize) this.history.shift();
else this.historyIndex++;`.
`slice(0, n)` for `n ≥ 0` is `List.take n`; `historyIndex ≥ -1` in every
reachable state, so `(historyIndex + 1).toNat` matches the JS index. -/
def saveState {S : Type} (s : CanvasHistory S) : CanvasHistory S :=
  let h := s.history.take (s.historyIndex + 1).toNat ++ [s.live]
  if maxHistorySize < h.length then
    { s with history := h.drop 1 }
  else
    { s with history := h, historyIndex := s.historyIndex + 1 }

/-- `CanvasManager.undo`: if `historyIndex > 0`, decrement it and
`loadState(this.history[this.historyIndex])` (which deserializes that
snapshot into the live canvas). -/
def undo {S : Type} [Inhabited S] (s : CanvasHistory S) : CanvasHistory S :=
  if 0 < s.historyIndex then
    { s with historyIndex := s.historyIndex - 1,
             live := s.history.getD (s.historyIndex - 1).toNat default }
  else s

/-- `CanvasManager.redo`: if `historyIndex < history.length - 1`, increment
it and load that snapshot into the live canvas. -/
def redo {S : Type} [Inhabited S] (s : CanvasHistory S) : CanvasHistory S :=
  if s.historyIndex < (s.history.length : Int) - 1 then
    { s with historyIndex := s.historyIndex + 1,
             live := s.history.getD (s.historyIndex + 1).toNat default }
  else s

/-- `CanvasManager.canUndo`: `this.historyIndex > 0`. -/
def canUndo {S : Type} (s : CanvasHistory S) : Bool :=
  0 < s.historyIndex

/-- `CanvasManager.canRedo`: `this.historyIndex < this.history.length - 1`. -/
def canRedo {S : Type} (s : CanvasHistory S) : Bool :=
  s.historyIndex < (s.history.length : Int) - 1

/-- A `capture`: the scene is mutated to `snap` (every
`object:modified` / `object:added` / `object:removed` event fires
`saveState`), so `saveState` runs with the new serialization live. -/
def capture {S : Type} (snap : S) (s : CanvasHistory S) : CanvasHistory S :=
  saveState { s with live := snap }

/-- The history right after `loadImage` resets it:
`this.history = []; this.historyIndex = -1;`. -/
def initialHistory {S : Type} [Inhabited S] : CanvasHistory S :=
  { history := [], historyIndex := -1, live := default }

/-- A sequence of consecutive captures, oldest first. -/
def captureAll {S : Type} (snaps : List S) (s : CanvasHistory S) :
    CanvasHistory S :=
  snaps.foldl (fun st sn => capture sn st) s

/-- One capture from a state whose cursor sits on the last snapshot:
the truncation keeps the whole array, the new snapshot is appended, and
when the capacity is exceeded the oldest snapshot is dropped. -/
theorem capture_step {S : Type} (snap : S) (s : CanvasHistory S)
    (hidx : s.historyIndex = (s.history.length : Int) - 1)
    (hlen : s.history.length ≤ maxHistorySize) :
    (capture snap s).history
        = (s.history ++ [snap]).drop (s.history.length + 1 - maxHistorySize) ∧
    (capture snap s).historyIndex
        = ((capture snap s).history.length : Int) - 1 := by
  simp only [capture, saveState, hidx]
  have h1 : ((s.history.length : Int) - 1 + 1).toNat = s.history.length := by
    omega
  rw [h1, List.take_length]
  rcases Nat.lt_or_ge s.history.length maxHistorySize with h | h
  · have hc : ¬ maxHistorySize < (s.history ++ [snap]).length := by
      simp; omega
    rw [if_neg hc]
    have h2 : s.history.length + 1 - maxHistorySize = 0 := by omega
    rw [h2, List.drop_zero]
    refine ⟨rfl, ?_⟩
    simp
  · have he : s.history.length = maxHistorySize := le_antisymm hlen h
    have hc : maxHistorySize < (s.history ++ [snap]).length := by
      simp; omega
    rw [if_pos hc]
    have h2 : s.history.length + 1 - maxHistorySize = 1 := by omega
    rw [h2]
    refine ⟨rfl, ?_⟩
    simp [he]

/-- After any sequence of captures from the freshly-reset history, the
stored snapshots are the most recent `maxHistorySize` ones in order, and
the cursor sits on the last one. -/
theorem captureAll_initial {S : Type} [Inhabited S] (snaps : List S) :
    (captureAll snaps (initialHistory (S := S))).history
        = snaps.drop (snaps.length - maxHistorySize) ∧
    (captureAll snaps (initialHistory (S := S))).historyIndex
        = ((captureAll snaps (initialHistory (S := S))).history.length : Int)
            - 1 := by
  induction snaps using List.reverseRecOn with
  | nil => simp [captureAll, initialHistory]
  | append_singleton xs x ih =>
      have hfold : captureAll (xs ++ [x]) (initialHistory (S := S))
          = capture x (captureAll xs (initialHistory (S := S))) := by
        simp [captureAll, List.foldl_append]
      obtain ⟨ih1, ih2⟩ := ih
      have hlen : (captureAll xs (initialHistory (S := S))).history.length
          ≤ maxHistorySize := by
        rw [ih1]; simp only [List.length_drop]; omega
      obtain ⟨hs1, hs2⟩ := capture_step x _ ih2 hlen
      rw [hfold]
      refine ⟨?_, hs2⟩
      rw [hs1, ih1]
      rcases Nat.lt_or_ge xs.length maxHistorySize with h | h
      · have z1 : xs.length - maxHistorySize = 0 := Nat.sub_eq_zero_of_le h.le
        rw [z1, List.drop_zero]
        simp only [List.length_append, List.length_singleton]
      · have e1 : (xs.drop (xs.length - maxHistorySize)).length
            = maxHistorySize := by
          simp only [List.length_drop]; omega
        rw [e1]
        have e2 : maxHistorySize + 1 - maxHistorySize = 1 := by omega
        rw [e2]
        have h4 : 1 ≤ (xs.drop (xs.length - maxHistorySize)).length := by
          rw [e1]; norm_num [maxHistorySize]
        rw [List.drop_append_of_le_length h4]
        have h5 : (xs ++ [x]).length - maxHistorySize ≤ xs.length := by
          simp only [List.length_append, List.length_singleton]; omega
        rw [List.drop_append_of_le_length h5]
        rw [List.drop_drop]
        congr 2
        simp only [List.length_append, List.length_singleton]
        omega

/-- **C1**: `capture()`/`saveState` first discards every snapshot after the
current cursor, then appends the new snapshot; if the length would exceed
the capacity `maxHistorySize = 20` it evicts the oldest snapshot instead of
growing, keeping the cursor valid. Consequently `N` consecutive captures
from the fresh history leave `min(N, 20)` snapshots — the most recent ones
in order — and a capture performed after undoing to cursor index `k`
yields history length `k + 2`. -/
theorem c1_saveState_truncation_capacity {S : Type} [Inhabited S]
    (snaps : List S) (snap : S) (s : CanvasHistory S) (k : Nat)
    (hk : s.historyIndex = (k : Int))
    (hlt : k + 1 < s.history.length)
    (hcap : s.history.length ≤ maxHistorySize) :
    (captureAll snaps (initialHistory (S := S))).history.length
        = min snaps.length maxHistorySize ∧
    (captureAll snaps (initialHistory (S := S))).history
        = snaps.drop (snaps.length - maxHistorySize) ∧
    (capture snap s).history.length = k + 2 ∧
    (capture snap s).historyIndex = (k : Int) + 1 := by
  obtain ⟨hc1, _⟩ := captureAll_initial (S := S) snaps
  have h1 : ((k : Int) + 1).toNat = k + 1 := by omega
  have h2 : ¬ maxHistorySize
      < (s.history.take (k + 1) ++ [snap]).length := by
    simp only [List.length_append, List.length_take, List.length_singleton]
    omega
  refine ⟨?_, hc1, ?_, ?_⟩
  · rw [hc1, List.length_drop]
    omega
  · simp only [capture, saveState, hk]
    rw [h1, if_neg h2]
    simp only [List.length_append, List.length_take, List.length_singleton]
    omega
  · simp only [capture, saveState, hk]
    rw [h1, if_neg h2]

/-- Witness for `c1_saveState_truncation_capacity` at
`snaps = [1, 2, 3]`, `snap = 9`, `s = ⟨[5, 6, 7], 1, 7⟩`, `k = 1`:
capturing after an undo to cursor 1 leaves 3 snapshots of length `1 + 2`. -/
theorem c1_saveState_truncation_capacity_witness :
    ((⟨[5, 6, 7], 1, 7⟩ : CanvasHistory ℕ).historyIndex = ((1 : ℕ) : Int) ∧
      1 + 1 < (⟨[5, 6, 7], 1, 7⟩ : CanvasHistory ℕ).history.length ∧
      (⟨[5, 6, 7], 1, 7⟩ : CanvasHistory ℕ).history.length
        ≤ maxHistorySize) ∧
    ((captureAll [1, 2, 3] (initialHistory (S := ℕ))).history.length
        = min ([1, 2, 3] : List ℕ).length maxHistorySize ∧
      (captureAll [1, 2, 3] (initialHistory (S := ℕ))).history
        = ([1, 2, 3] : List ℕ).drop
            (([1, 2, 3] : List ℕ).length - maxHistorySize) ∧
      (capture 9 (⟨[5, 6, 7], 1, 7⟩ : CanvasHistory ℕ)).history.length
        = 1 + 2 ∧
      (capture 9 (⟨[5, 6, 7], 1, 7⟩ : CanvasHistory ℕ)).historyIndex
        = ((1 : ℕ) : Int) + 1) :=
  ⟨⟨by decide, by decide, by decide⟩,
    c1_saveState_truncation_capacity [1, 2, 3] 9 ⟨[5, 6, 7], 1, 7⟩ 1
      (by decide) (by decide) (by decide)⟩

/-- **C2**: whenever `canUndo()` holds (cursor > 0), `undo()` followed
immediately by `redo()` restores a state — history, cursor and live
scene — identical to the one before the `undo()`. The hypotheses `hlen`
and `hlive` are the reachability invariants of `CanvasManager`: the
cursor points into the array, and the live scene was serialized into the
snapshot at the cursor (every mutating canvas event fires `saveState`,
and `undo`/`redo` reload the snapshot at the cursor). -/
theorem c2_undo_redo_roundtrip {S : Type} [Inhabited S] (s : CanvasHistory S)
    (hu : canUndo s = true)
    (hlen : s.historyIndex < (s.history.length : Int))
    (hlive : s.live = s.history.getD s.historyIndex.toNat default) :
    redo (undo s) = s := by
  have hi : 0 < s.historyIndex := by
    simpa [canUndo] using hu
  obtain ⟨hist, i, live⟩ := s
  simp only at hi hlen hlive
  simp only [undo, if_pos hi]
  have hc : i - 1 < (hist.length : Int) - 1 := by omega
  simp only [redo, hc, if_pos, if_true]
  simp only [CanvasHistory.mk.injEq]
  have h1 : i - 1 + 1 = i := by omega
  rw [h1]
  exact ⟨trivial, rfl, hlive.symm⟩

/-- Witness for `c2_undo_redo_roundtrip` at the concrete history
`⟨[10, 20, 30], 2, 30⟩`. -/
theorem c2_undo_redo_roundtrip_witness :
    (canUndo (⟨[10, 20, 30], 2, 30⟩ : CanvasHistory ℕ) = true ∧
      (⟨[10, 20, 30], 2, 30⟩ : CanvasHistory ℕ).historyIndex
        < (((⟨[10, 20, 30], 2, 30⟩ : CanvasHistory ℕ)).history.length : Int) ∧
      (⟨[10, 20, 30], 2, 30⟩ : CanvasHistory ℕ).live
        = (⟨[10, 20, 30], 2, 30⟩ : CanvasHistory ℕ).history.getD
            (⟨[10, 20, 30], 2, 30⟩ : CanvasHistory ℕ).historyIndex.toNat
            default) ∧
    redo (undo (⟨[10, 20, 30], 2, 30⟩ : CanvasHistory ℕ))
      = (⟨[10, 20, 30], 2, 30⟩ : CanvasHistory ℕ) :=
  ⟨⟨by decide, by decide, by decide⟩,
    c2_undo_redo_roundtrip ⟨[10, 20, 30], 2, 30⟩
      (by decide) (by decide) (by decide)⟩

/-- **C10**: immediately after every `saveState` call — including the ones
that evict the oldest snapshot at capacity — the cursor equals
`history.length - 1`, so the new snapshot is current and `canRedo()` is
false. The hypotheses are the reachability invariants
`-1 ≤ historyIndex < history.length`. -/
theorem c10_cursor_at_top_after_save {S : Type} [Inhabited S]
    (s : CanvasHistory S)
    (h1 : -1 ≤ s.historyIndex)
    (h2 : s.historyIndex < (s.history.length : Int)) :
    (saveState s).historyIndex = ((saveState s).history.length : Int) - 1 ∧
    canRedo (saveState s) = false := by
  have key : (saveState s).historyIndex
      = ((saveState s).history.length : Int) - 1 := by
    simp only [saveState]
    have ht : (s.historyIndex + 1).toNat ≤ s.history.length := by omega
    rcases Nat.lt_or_ge maxHistorySize
        (s.history.take (s.historyIndex + 1).toNat ++ [s.live]).length
        with h | h
    · rw [if_pos h]
      simp only [List.length_drop, List.length_append, List.length_take,
        List.length_singleton] at h ⊢
      omega
    · rw [if_neg (not_lt.mpr h)]
      simp only [List.length_append, List.length_take, List.length_singleton]
        at h ⊢
      omega
  refine ⟨key, ?_⟩
  simp only [canRedo, key]
  simp

/-! ## fitToViewport and zoom (src/app.js, CanvasManager) -/

/-- A Fabric.js image object: its intrinsic pixel size and its transform
(`scaleX`, `scaleY`, `left`, `top`, `angle`). -/
structure FabricImage where
  width : ℚ
  height : ℚ
  scaleX : ℚ
  scaleY : ℚ
  left : ℚ
  top : ℚ
  angle : ℚ
deriving DecidableEq, Repr

/-- `CanvasManager.fitToViewport`:
`scaleX = (canvasWidth * 0.9) / imgWidth`,
`scaleY = (canvasHeight * 0.9) / imgHeight`, `scale = min(scaleX, scaleY)`;
then `img.scale(scale)` (which sets both `scaleX` and `scaleY`) and
`canvas.centerObject(img)` (modelled from Fabric.js: with the default
top-left origin it places the object's scaled bounding box in the middle
of the canvas). -/
def fitToViewport (canvasWidth canvasHeight : ℚ) (img : FabricImage) :
    FabricImage :=
  let scaleX := canvasWidth * (9 / 10) / img.width
  let scaleY := canvasHeight * (9 / 10) / img.height
  let scale := min scaleX scaleY
  { img with
      scaleX := scale
      scaleY := scale
      left := (canvasWidth - img.width * scale) / 2
      top := (canvasHeight - img.height * scale) / 2 }

/-- **C3, counterexample**: the claim asserts that fitting an 800×600
object into a 1000×800 canvas yields scale exactly `0.9`; the code
computes `min(0.9·1000/800, 0.9·800/600) = min(1.125, 1.2) = 1.125`. -/
theorem c3_fit_scale_counterexample :
    (fitToViewport 1000 800 ⟨800, 600, 1, 1, 0, 0, 0⟩).scaleX = 9 / 8 ∧
    (fitToViewport 1000 800 ⟨800, 600, 1, 1, 0, 0, 0⟩).scaleX ≠ 9 / 10 := by
  constructor
  · norm_num [fitToViewport]
  · norm_num [fitToViewport]

/-- **C3, amended**: `fitToViewport` sets both scale factors to
`min(0.9·canvasW/objW, 0.9·canvasH/objH)` and centers the object, leaving
the object's intrinsic size and rotation untouched; for an 800×600 object
in a 1000×800 canvas the resulting scale is `1.125` (not `0.9`). -/
theorem c3_fit_scale_amended (canvasWidth canvasHeight : ℚ)
    (img : FabricImage) :
    (fitToViewport canvasWidth canvasHeight img).scaleX
        = min (canvasWidth * (9 / 10) / img.width)
            (canvasHeight * (9 / 10) / img.height) ∧
    (fitToViewport canvasWidth canvasHeight img).scaleY
        = (fitToViewport canvasWidth canvasHeight img).scaleX ∧
    (fitToViewport canvasWidth canvasHeight img).left
        = (canvasWidth - img.width
            * (fitToViewport canvasWidth canvasHeight img).scaleX) / 2 ∧
    (fitToViewport canvasWidth canvasHeight img).top
        = (canvasHeight - img.height
            * (fitToViewport canvasWidth canvasHeight img).scaleX) / 2 ∧
    (fitToViewport canvasWidth canvasHeight img).width = img.width ∧
    (fitToViewport canvasWidth canvasHeight img).height = img.height ∧
    (fitToViewport canvasWidth canvasHeight img).angle = img.angle ∧
    (fitToViewport 1000 800 ⟨800, 600, 1, 1, 0, 0, 0⟩).scaleX = 9 / 8 :=
  ⟨rfl, rfl, rfl, rfl, rfl, rfl, rfl, by norm_num [fitToViewport]⟩

/-- `CanvasManager.zoomIn`: `newScale = currentScale * 1.2`, applied by
`img.scale(newScale)` with no clamping. -/
def zoomIn (scale : ℚ) : ℚ := scale * (6 / 5)

/-- `CanvasManager.zoomOut`: `newScale = currentScale / 1.2`;
`if (newScale < 0.1) return;` makes a zoom-out below the floor a no-op. -/
def zoomOut (scale : ℚ) : ℚ :=
  let newScale := scale / (6 / 5)
  if newScale < 1 / 10 then scale else newScale

/-- **C4, counterexample**: `zoomIn` does not clamp to `[0.1, 20]`
(from scale 19 one `zoomIn` yields `22.8 > 20`), and repeated `zoomOut`
from scale 1 saturates at `(5/6)^12 = 244140625/2176782336 ≈ 0.1122`,
a fixed point of `zoomOut` different from `0.1`. -/
theorem c4_zoom_clamp_counterexample :
    zoomIn 19 = 114 / 5 ∧ ¬ ((114 / 5 : ℚ) ≤ 20) ∧
    zoomOut^[12] (1 : ℚ) = 244140625 / 2176782336 ∧
    zoomOut (244140625 / 2176782336) = 244140625 / 2176782336 ∧
    (244140625 / 2176782336 : ℚ) ≠ 1 / 10 := by
  refine ⟨by norm_num [zoomIn], by norm_num, ?_,
    by norm_num [zoomOut], by norm_num⟩
  simp only [show (12 : ℕ) = 11 + 1 from rfl, show (11 : ℕ) = 10 + 1 from rfl,
    show (10 : ℕ) = 9 + 1 from rfl, show (9 : ℕ) = 8 + 1 from rfl,
    show (8 : ℕ) = 7 + 1 from rfl, show (7 : ℕ) = 6 + 1 from rfl,
    show (6 : ℕ) = 5 + 1 from rfl, show (5 : ℕ) = 4 + 1 from rfl,
    show (4 : ℕ) = 3 + 1 from rfl, show (3 : ℕ) = 2 + 1 from rfl,
    show (2 : ℕ) = 1 + 1 from rfl,
    Function.iterate_succ_apply', Function.iterate_one]
  norm_num [zoomOut]

/-- `zoomOut` never takes a scale that is at least the floor `0.1`
below the floor. -/
theorem zoomOut_ge_floor (s : ℚ) (hs : 1 / 10 ≤ s) : 1 / 10 ≤ zoomOut s := by
  simp only [zoomOut]
  split
  · exact hs
  · next h => exact not_lt.mp h

/-- **C4, amended**: `zoomIn()` multiplies the scale by 1.2 with no
clamping; `zoomOut()` divides by 1.2 unless the result would fall below
the `0.1` floor, in which case it is a no-op rather than an error; any
sequence of repeated `zoomOut()` calls keeps the scale at or above `0.1`
(saturating at the last value whose next division stays at or above the
floor, not at exactly `0.1`). -/
theorem c4_zoom_amended (s : ℚ) (n : ℕ) (hs : 1 / 10 ≤ s) :
    zoomIn s = s * (6 / 5) ∧
    (s / (6 / 5) < 1 / 10 → zoomOut s = s) ∧
    (1 / 10 ≤ s / (6 / 5) → zoomOut s = s / (6 / 5)) ∧
    1 / 10 ≤ zoomOut^[n] s := by
  refine ⟨rfl, ?_, ?_, ?_⟩
  · intro h; simp only [zoomOut, if_pos h]
  · intro h; simp only [zoomOut, if_neg (not_lt.mpr h)]
  · induction n generalizing s with
    | zero => simpa using hs
    | succ m ih =>
        rw [Function.iterate_succ_apply]
        exact ih _ (zoomOut_ge_floor s hs)

/-- Witness for `c4_zoom_amended` at scale 1 and 20 repetitions. -/
theorem c4_zoom_amended_witness :
    (1 / 10 : ℚ) ≤ 1 ∧
    (zoomIn 1 = 1 * (6 / 5) ∧
      ((1 : ℚ) / (6 / 5) < 1 / 10 → zoomOut 1 = 1) ∧
      ((1 : ℚ) / 10 ≤ 1 / (6 / 5) → zoomOut 1 = 1 / (6 / 5)) ∧
      1 / 10 ≤ zoomOut^[20] (1 : ℚ)) :=
  ⟨by norm_num, c4_zoom_amended 1 20 (by norm_num)⟩

/-- Witness for `c10_cursor_at_top_after_save` at a full history
(20 snapshots, cursor 19), the eviction case. -/
theorem c10_cursor_at_top_after_save_witness :
    (-1 ≤ (⟨List.range 20, 19, 99⟩ : CanvasHistory ℕ).historyIndex ∧
      (⟨List.range 20, 19, 99⟩ : CanvasHistory ℕ).historyIndex
        < ((⟨List.range 20, 19, 99⟩ : CanvasHistory ℕ).history.length
            : Int)) ∧
    ((saveState (⟨List.range 20, 19, 99⟩ : CanvasHistory ℕ)).historyIndex
        = ((saveState
            (⟨List.range 20, 19, 99⟩ : CanvasHistory ℕ)).history.length
              : Int) - 1 ∧
      canRedo (saveState (⟨List.range 20, 19, 99⟩ : CanvasHistory ℕ))
        = false) :=
  ⟨⟨by decide, by decide⟩,
    c10_cursor_at_top_after_save ⟨List.range 20, 19, 99⟩
      (by decide) (by decide)⟩

/-- The mutable state `CanvasManager.handleResize` acts on: the canvas
pixel dimensions and the current image object (if any). -/
structure CanvasState where
  width : Int
  height : Int
  currentImage : Option FabricImage
deriving DecidableEq, Repr

/-- `CanvasManager.handleResize`:
`newWidth = max(floor(containerWidth - padding), 100)` (same for height,
`padding = 40`); resize only `if (widthDiff > 5 || heightDiff > 5)`, where
the diffs compare against the current canvas dimensions; when resizing,
it stores `imageState = {scaleX, scaleY, left, top, angle}` of the current
image before `canvas.setDimensions` and re-applies it unchanged after.
The `isResizing` re-entrancy flag and the missing-DOM-element early
returns do not change this state. -/
def handleResize (st : CanvasState) (containerWidth containerHeight : ℚ) :
    CanvasState :=
  let padding : ℚ := 40
  let newWidth := max ⌊containerWidth - padding⌋ 100
  let newHeight := max ⌊containerHeight - padding⌋ 100
  let widthDiff := |st.width - newWidth|
  let heightDiff := |st.height - newHeight|
  if 5 < widthDiff ∨ 5 < heightDiff then
    let imageState := st.currentImage.map
      (fun img => (img.scaleX, img.scaleY, img.left, img.top, img.angle))
    let restored := match st.currentImage, imageState with
      | some img, some t =>
          some { img with scaleX := t.1, scaleY := t.2.1, left := t.2.2.1,
                          top := t.2.2.2.1, angle := t.2.2.2.2 }
      | img, _ => img
    { width := newWidth, height := newHeight, currentImage := restored }
  else st

/-- **C5**: `handleResize` re-applies new pixel dimensions only when the
computed width or height differs from the current one by more than the
5px hysteresis threshold, and the current object's transform
(`scaleX, scaleY, left, top, angle`) is captured before the resize and
re-applied unchanged afterwards — resize never rescales or moves the
content. -/
theorem c5_resize_hysteresis_transform (st : CanvasState) (cw ch : ℚ) :
    (¬ (5 < |st.width - max ⌊cw - 40⌋ 100|
          ∨ 5 < |st.height - max ⌊ch - 40⌋ 100|) →
        handleResize st cw ch = st) ∧
    ((5 < |st.width - max ⌊cw - 40⌋ 100|
          ∨ 5 < |st.height - max ⌊ch - 40⌋ 100|) →
        (handleResize st cw ch).width = max ⌊cw - 40⌋ 100 ∧
        (handleResize st cw ch).height = max ⌊ch - 40⌋ 100) ∧
    (handleResize st cw ch).currentImage = st.currentImage := by
  refine ⟨?_, ?_, ?_⟩
  · intro h
    simp only [handleResize, if_neg h]
  · intro h
    simp only [handleResize, if_pos h]
    exact ⟨trivial, trivial⟩
  · simp only [handleResize]
    split
    · cases st.currentImage with
      | none => rfl
      | some img => rfl
    · rfl

/-- Witness for `c5_resize_hysteresis_transform`: a 600×446 container
resizes the 500×400 canvas but leaves the image untouched; a 544×444
container is within the 5px hysteresis and nothing changes. -/
theorem c5_resize_hysteresis_transform_witness :
    (handleResize ⟨500, 400, some ⟨800, 600, 1, 1, 0, 0, 0⟩⟩ 600 446).currentImage
      = some ⟨800, 600, 1, 1, 0, 0, 0⟩ ∧
    handleResize ⟨500, 400, some ⟨800, 600, 1, 1, 0, 0, 0⟩⟩ 544 444
      = ⟨500, 400, some ⟨800, 600, 1, 1, 0, 0, 0⟩⟩ :=
  ⟨(c5_resize_hysteresis_transform ⟨500, 400, some ⟨800, 600, 1, 1, 0, 0, 0⟩⟩ 600 446).2.2,
    (c5_resize_hysteresis_transform ⟨500, 400, some ⟨800, 600, 1, 1, 0, 0, 0⟩⟩ 544 444).1 (by norm_num)⟩

/-! ## BatchConverter (src/unnamed/part_002) -/

/-- Job status strings: `'pending' | 'processing' | 'completed' | 'error'`. -/
inductive JobStatus
  | pending
  | processing
  | completed
  | error
deriving DecidableEq, Repr

/-- One entry of `this.images`: `{id, file, status, result, preview}`
(the `preview` data URL plays no role in the verified behaviour). -/
structure BatchJob (F R : Type) where
  id : Nat
  file : F
  status : JobStatus
  result : Option R
deriving DecidableEq, Repr

/-- The per-job body of the `startConversion` loop: set
`image.status = 'processing'`, convert (`embedImage` or `vectorizeImage`
according to the selected option, abstracted as a fallible `convert`),
on success store `image.result` and mark `'completed'`; on a raised
condition mark `'error'` (leaving `result` as it was). -/
def processJob {F R E : Type} (convert : F → Except E R)
    (job : BatchJob F R) : BatchJob F R :=
  let job := { job with status := JobStatus.processing }
  match convert job.file with
  | Except.ok r =>
      { job with status := JobStatus.completed, result := some r }
  | Except.error _ => { job with status := JobStatus.error }

/-- The `for` loop of `BatchConverter.startConversion`: processes the
jobs strictly in order, incrementing `this.processedCount` after each;
returns the final `images` array and `processedCount`. -/
def startConversionLoop {F R E : Type} (convert : F → Except E R) :
    List (BatchJob F R) → Nat → List (BatchJob F R) × Nat
  | [], n => ([], n)
  | job :: rest, n =>
      let done := processJob convert job
      let other := startConversionLoop convert rest (n + 1)
      (done :: other.1, other.2)

/-- `BatchConverter.updateProgress`:
`percentage = Math.round((processedCount / images.length) * 100)`. -/
def updateProgress (processedCount total : Nat) : Int :=
  round (((processedCount : ℚ) / total) * 100)

/-- `BatchConverter.downloadAll`'s completed set:
`this.images.filter(img => img.status === 'completed' && img.result)`. -/
def completedImages {F R : Type} [DecidableEq F] [DecidableEq R]
    (images : List (BatchJob F R)) : List (BatchJob F R) :=
  images.filter
    (fun img => img.status == JobStatus.completed && img.result.isSome)

/-- The concrete conversion used as C6's `[A(valid), B(corrupt), C(valid)]`
scenario: file 1 is the corrupt one, valid files convert to `10·f`. -/
def convertABC : Nat → Except Unit Nat :=
  fun f => if f = 1 then Except.error () else Except.ok (10 * f)

/-- **C6**: `startConversion` processes the enqueued jobs strictly
sequentially and isolates per-job failures: the resulting array is the
in-order per-job map of the loop body (mark processing, convert, mark
completed with the stored result, or mark error and continue), and
`processedCount` counts every job. For jobs `[A(valid), B(corrupt),
C(valid)]` the final statuses are `[completed, error, completed]`,
exactly `{A, C}` appear in `downloadAll`'s completed set, and the final
progress is 100% despite B's failure. -/
theorem c6_batch_failure_isolation {F R E : Type} [DecidableEq F] [DecidableEq R]
    (convert : F → Except E R) (images : List (BatchJob F R)) (n : Nat) :
    (startConversionLoop convert images n).1
        = images.map (processJob convert) ∧
    (startConversionLoop convert images n).2 = n + images.length ∧
    ((startConversionLoop convertABC
        [⟨1, 0, JobStatus.pending, none⟩, ⟨2, 1, JobStatus.pending, none⟩,
          ⟨3, 2, JobStatus.pending, none⟩] 0).1.map BatchJob.status
      = [JobStatus.completed, JobStatus.error, JobStatus.completed]) ∧
    (completedImages (startConversionLoop convertABC
        [⟨1, 0, JobStatus.pending, none⟩, ⟨2, 1, JobStatus.pending, none⟩,
          ⟨3, 2, JobStatus.pending, none⟩] 0).1
      = [⟨1, 0, JobStatus.completed, some 0⟩,
          ⟨3, 2, JobStatus.completed, some 20⟩]) ∧
    updateProgress 3 3 = 100 := by
  refine ⟨?_, ?_, by decide, by decide, by norm_num [updateProgress]⟩
  · induction images generalizing n with
    | nil => rfl
    | cons j rest ih => simp [startConversionLoop, ih]
  · induction images generalizing n with
    | nil => simp [startConversionLoop]
    | cons j rest ih => simp [startConversionLoop, ih]; omega


/-- A selected file, reduced to its MIME type string (`file.type`). -/
structure JSFile where
  mime : String
deriving DecidableEq, Repr

/-- The validity filter of `handleFileSelect`:
`file.type.match(/^image\/(jpeg|png|bmp)$/)`. -/
def isValidImageType (f : JSFile) : Bool :=
  f.mime == "image/jpeg" || f.mime == "image/png" || f.mime == "image/bmp"

/-- The `BatchConverter` queue state: `this.images` and the `nextId`
counter. -/
structure BatchState (R : Type) where
  images : List (BatchJob JSFile R)
  nextId : Nat
deriving DecidableEq, Repr

/-- `BatchConverter.handleFileSelect`: if
`this.images.length + fileArray.length > 50`, warn and return (no
enqueue at all); otherwise filter to the valid image types, warn and
return if none are valid, else push one pending job per valid file,
each taking `id = this.nextId++`. -/
def handleFileSelect {R : Type} (s : BatchState R) (files : List JSFile) :
    BatchState R :=
  if 50 < s.images.length + files.length then s
  else
    let validFiles := files.filter isValidImageType
    if validFiles.length = 0 then s
    else
      { images := s.images ++ validFiles.mapIdx
          (fun k f => BatchJob.mk (s.nextId + k) f JobStatus.pending none),
        nextId := s.nextId + validFiles.length }

/-- A session already holding 50 enqueued jobs. -/
def fullSession : BatchState Nat :=
  { images := (List.range 50).map
      (fun i => BatchJob.mk (i + 1) (JSFile.mk "image/png")
        JobStatus.pending none),
    nextId := 51 }

/-- **C7**: the batch job queue is bounded at 50: a selection that would
push the total beyond 50 is rejected and enqueues nothing at all, the
queue length never exceeds 50, and enqueuing a 51st job into a session
holding 50 leaves exactly the same 50 jobs. -/
theorem c7_batch_queue_bound {R : Type} (s u : BatchState R)
    (files gs : List JSFile)
    (hover : 50 < s.images.length + files.length)
    (hcap : u.images.length ≤ 50) :
    handleFileSelect s files = s ∧
    (handleFileSelect u gs).images.length ≤ 50 ∧
    handleFileSelect fullSession [JSFile.mk "image/png"] = fullSession := by
  refine ⟨?_, ?_, ?_⟩
  · simp only [handleFileSelect, if_pos hover]
  · simp only [handleFileSelect]
    split
    · exact hcap
    · next hnot =>
        split
        · exact hcap
        · simp only [List.length_append, List.length_mapIdx]
          have hf := List.length_filter_le isValidImageType gs
          omega
  · have h50 : fullSession.images.length = 50 := by
      simp [fullSession]
    simp only [handleFileSelect, h50]
    norm_num


/-- Witness for `c7_batch_queue_bound`: the 51st file into a full
session is rejected, leaving the same 50 jobs. -/
theorem c7_batch_queue_bound_witness :
    (50 < fullSession.images.length + [JSFile.mk "image/png"].length ∧
      fullSession.images.length ≤ 50) ∧
    (handleFileSelect fullSession [JSFile.mk "image/png"] = fullSession ∧
      (handleFileSelect fullSession ([] : List JSFile)).images.length ≤ 50 ∧
      handleFileSelect fullSession [JSFile.mk "image/png"] = fullSession) :=
  ⟨⟨by simp [fullSession], by simp [fullSession]⟩,
    c7_batch_queue_bound fullSession fullSession [JSFile.mk "image/png"] []
      (by simp [fullSession]) (by simp [fullSession])⟩

/-! ## ImageSmoother.smoothEdgesOnly (src/app.js) -/

/-- One RGBA pixel of an `ImageData` buffer (byte values 0–255). -/
structure Pixel where
  r : Nat
  g : Nat
  b : Nat
  a : Nat
deriving DecidableEq, Repr

/-- An image as a pixel lookup:
`data[(y*width + x)*4 + c]` becomes channel `c` of `img x y`. -/
def Image : Type := Nat → Nat → Pixel

/-- The grayscale value `(data[idx] + data[idx+1] + data[idx+2]) / 3`. -/
def lum (p : Pixel) : ℚ := ((p.r : ℚ) + p.g + p.b) / 3

/-- `gradientX = Math.abs(right - left)`: the horizontal luminance
gradient from the immediate neighbors. -/
def gradX (img : Image) (x y : Nat) : ℚ :=
  |lum (img (x + 1) y) - lum (img (x - 1) y)|

/-- `gradientY = Math.abs(bottom - top)`: the vertical luminance
gradient from the immediate neighbors. -/
def gradY (img : Image) (x y : Nat) : ℚ :=
  |lum (img x (y + 1)) - lum (img x (y - 1))|

/-- The edge map of `smoothEdgesOnly`: the detection loop runs over the
interior (`1 ≤ x ≤ width-2`, `1 ≤ y ≤ height-2`) and marks
`edgeMap[y*width + x] = gradient > edgeThreshold ? 1 : 0` with
`gradient = Math.sqrt(gradientX² + gradientY²)`; entries the loop never
touches stay 0. The square-root comparison is embedded as the
equivalent squared comparison (`edgeThreshold ≥ 0`), proved equivalent
in `c8_edge_aware_smooth`. -/
def isEdge (img : Image) (w h : Nat) (t : ℚ) (x y : Nat) : Bool :=
  if 1 ≤ x ∧ x < w - 1 ∧ 1 ≤ y ∧ y < h - 1 then
    decide (t ^ 2 < gradX img x y ^ 2 + gradY img x y ^ 2)
  else false

/-- The blend loop of `smoothEdgesOnly`: edge pixels take the fully
smoothed value (`smoothImageData` applied to the whole image, an
external StackBlur/canvas-filter computation abstracted as the
`smoothed` argument), non-edge pixels keep the original bytes. -/
def smoothEdgesOnly (img smoothed : Image) (w h : Nat) (t : ℚ) : Image :=
  fun x y => if isEdge img w h t x y then smoothed x y else img x y

/-- **C8**: `smoothEdgesOnly` marks an interior pixel as an edge exactly
when `sqrt(gradientX² + gradientY²) > edgeThreshold` (gradients of the
immediate-neighbor luminances); in the output every non-edge pixel is
byte-identical to the input pixel, and every edge pixel equals the value
at that coordinate in the fully smoothed copy. -/
theorem c8_edge_aware_smooth (img smoothed : Image) (w h : Nat) (t : ℚ)
    (ht : 0 ≤ t) (x y : Nat) :
    (isEdge img w h t x y = true ↔
      ((1 ≤ x ∧ x < w - 1 ∧ 1 ≤ y ∧ y < h - 1) ∧
        ((t : ℝ) < Real.sqrt ((gradX img x y : ℝ) ^ 2
          + (gradY img x y : ℝ) ^ 2)))) ∧
    (isEdge img w h t x y = false →
      smoothEdgesOnly img smoothed w h t x y = img x y) ∧
    (isEdge img w h t x y = true →
      smoothEdgesOnly img smoothed w h t x y = smoothed x y) := by
  refine ⟨?_, ?_, ?_⟩
  · simp only [isEdge]
    split
    · next hin =>
        simp only [hin, true_and, decide_eq_true_eq]
        rw [Real.lt_sqrt (by exact_mod_cast ht)]
        constructor
        · intro hq
          exact_mod_cast hq
        · intro hr
          exact_mod_cast hr
    · next hin =>
        simp only [Bool.false_eq_true, false_iff]
        intro hcon
        exact hin hcon.1
  · intro hf
    simp only [smoothEdgesOnly, hf, Bool.false_eq_true, if_false]
  · intro htr
    simp only [smoothEdgesOnly, htr, if_true]

/-- A 4×4 test image with a vertical black/white edge between `x = 1`
and `x = 2`. -/
def testImage : Image :=
  fun x _ => if x < 2 then ⟨0, 0, 0, 255⟩ else ⟨255, 255, 255, 255⟩

/-- A stand-in for the fully smoothed copy of `testImage`. -/
def blurredImage : Image := fun _ _ => ⟨128, 128, 128, 255⟩

/-- Witness for `c8_edge_aware_smooth` at the edge pixel `(2, 1)` of the
4×4 test image with threshold 30. -/
theorem c8_edge_aware_smooth_witness :
    (0 : ℚ) ≤ 30 ∧
    ((isEdge testImage 4 4 30 2 1 = true ↔
      ((1 ≤ 2 ∧ 2 < 4 - 1 ∧ 1 ≤ 1 ∧ 1 < 4 - 1) ∧
        ((30 : ℝ) < Real.sqrt ((gradX testImage 2 1 : ℝ) ^ 2
          + (gradY testImage 2 1 : ℝ) ^ 2)))) ∧
    (isEdge testImage 4 4 30 2 1 = false →
      smoothEdgesOnly testImage blurredImage 4 4 30 2 1 = testImage 2 1) ∧
    (isEdge testImage 4 4 30 2 1 = true →
      smoothEdgesOnly testImage blurredImage 4 4 30 2 1 = blurredImage 2 1)) :=
  ⟨by norm_num, c8_edge_aware_smooth testImage blurredImage 4 4 30 (by norm_num) 2 1⟩

/-! ## The isProcessing guards (src/app.js handleVectorize,
src/unnamed/part_002 BatchConverter.startConversion) -/

/-- The single-image app state: `AppState.isProcessing`, together with a
ghost counter of pipeline runs begun, to make an entry past the guard
observable. -/
structure AppState where
  isProcessing : Bool
  runsStarted : Nat
deriving DecidableEq, Repr

/-- The entry prologue of `handleVectorize` (src/app.js):
`if (AppState.isProcessing) return;` — only then does it set
`AppState.isProcessing = true` and begin a pipeline run. -/
def handleVectorizeEntry (s : AppState) : AppState :=
  if s.isProcessing then s
  else { isProcessing := true, runsStarted := s.runsStarted + 1 }

/-- `BatchConverter`'s own `isProcessing` flag with the same ghost run
counter. -/
structure BatchProcessingState where
  isProcessing : Bool
  runsStarted : Nat
deriving DecidableEq, Repr

/-- The entry prologue of `BatchConverter.startConversion`
(src/unnamed/part_002, line 331): the method performs no `isProcessing`
check — it unconditionally sets `this.isProcessing = true` and begins
the batch loop. (The UI separately sets
`batchStart.disabled = !hasImages || this.isProcessing` in `updateUI`.) -/
def startConversionEntry (b : BatchProcessingState) : BatchProcessingState :=
  { isProcessing := true, runsStarted := b.runsStarted + 1 }

/-- **C9, counterexample**: calling `startConversion` while
`isProcessing` is already true still begins a second batch run — the
entry point does not check the guard, refuting the claim that the guard
is checked before every entry point that mutates batch state. -/
theorem c9_guard_counterexample :
    (startConversionEntry ⟨true, 1⟩).runsStarted = 2 ∧
    startConversionEntry ⟨true, 1⟩ ≠ ⟨true, 1⟩ := by
  constructor
  · rfl
  · intro h
    exact absurd (congrArg BatchProcessingState.runsStarted h) (by decide)

/-- **C9, amended**: `handleVectorize` checks `AppState.isProcessing`
and is a no-op while a run is active, so the single-image entry point
never begins a second pipeline run; `BatchConverter.startConversion`
performs no such check and begins a batch run even while its
`isProcessing` flag is true (the UI relies on disabling the start button
instead). -/
theorem c9_guard_amended (s : AppState) (b : BatchProcessingState)
    (hs : s.isProcessing = true) :
    handleVectorizeEntry s = s ∧
    (startConversionEntry b).runsStarted = b.runsStarted + 1 ∧
    (startConversionEntry b).isProcessing = true := by
  refine ⟨?_, rfl, rfl⟩
  simp only [handleVectorizeEntry, hs, if_true]

/-- Witness for `c9_guard_amended` at concrete busy states. -/
theorem c9_guard_amended_witness :
    (⟨true, 5⟩ : AppState).isProcessing = true ∧
    (handleVectorizeEntry ⟨true, 5⟩ = ⟨true, 5⟩ ∧
      (startConversionEntry ⟨true, 5⟩).runsStarted = 5 + 1 ∧
      (startConversionEntry ⟨true, 5⟩).isProcessing = true) :=
  ⟨rfl, c9_guard_amended ⟨true, 5⟩ ⟨true, 5⟩ rfl⟩

end SVGify
